import Mathlib

/-!
Shallow embedding of `src/commands/analyze_sourcemaps.rs` (sentry-cli's
`analyze-sourcemaps` command).  External collaborators (the HTTP client,
the URL library's parse/join, the HTML parser, the sourcemap codec, the
minification classifier and the directory walker) are modelled as fields
of an `Env` record; the command's own control flow is translated
faithfully, with every Rust `?` becoming explicit error propagation and
every network call recorded as an `Event` so that temporal claims
("no request is issued for …") can be stated.  Printing to stdout is not
modelled except for the observable end-of-run report flags.
-/

deriving instance DecidableEq for Except

namespace AnalyzeSourcemaps

/-- Model of a parsed absolute URL (the `url::Url` values the command
manipulates): `domain` is `Url::domain()` (none for hostless or
IP-address URLs), `path` is `Url::path()`.  `tag` keeps distinct URLs
distinct even when domain and path agree (serialization artifacts such
as scheme or query are irrelevant to every claim). -/
structure Url where
  domain : Option String
  path : String
  tag : String
deriving DecidableEq

/-- One observable action of a run: a GET request, a HEAD request, a
consultation of the minification classifier, or the per-source
"invalid source reference" report of `validate_sourcemap`. -/
inductive Event where
  | get (u : Url)
  | head (u : Url)
  | minCheck
  | invalidSourceRef (idx : Nat)
deriving DecidableEq

/-- The error channel of the Rust `Result` type: which failing `?` (or
`unwrap`-free error path) aborted.  `urlParse` is `Url::parse` of the
command-line URL, `transport` a transport-level `Err` from the HTTP
client, `httpStatus` `ApiResponse::to_result` on a failed response,
`bodyRead` a failing `body_as_string`/`body_as_bytes`, `htmlParse` a
failing `parse_html`, `joinErr` a failing `Url::join`, `walkErr` a
failing `env::current_dir`/`WalkDir` entry, `decodeErr` a failing
`DecodedMap::from_reader`, `flattenErr` a failing index-map `flatten`. -/
inductive RunError where
  | urlParse
  | transport
  | httpStatus
  | bodyRead
  | htmlParse
  | joinErr
  | walkErr
  | decodeErr
  | flattenErr
deriving DecidableEq

/-- A GET response as the api collaborator returns it: final URL after
redirects, status, the `failed()` flag, the two sourcemap headers, and
the body (whose reading can itself fail). -/
structure Response where
  finalUrl : Url
  status : Nat
  failed : Bool
  headerSourcemap : Option String
  headerXSourcemap : Option String
  body : Except Unit String
deriving DecidableEq

/-- A HEAD response: the `ok()` flag and status used by
`validate_sourcemap`'s scrape check. -/
structure HeadResponse where
  finalUrl : Url
  status : Nat
  ok : Bool
deriving DecidableEq

/-- One source entry of a decoded map: `ref` is `get_source idx`
(none = no name recorded), `contents` the entry of `source_contents()`
(none = no embedded source). -/
structure SourceEntry where
  ref : Option String
  contents : Option String
deriving DecidableEq

/-- A regular (flattened) sourcemap: the ordered source entries. -/
structure RegularMap where
  sources : List SourceEntry
deriving DecidableEq

/-- `sourcemap::DecodedMap`: regular, or an index map whose
`flatten()` result is part of the collaborator's behaviour. -/
inductive DecodedMap where
  | regular (m : RegularMap)
  | index (flattened : Except Unit RegularMap)
deriving DecidableEq

mutual

/-- A parsed HTML node as rcdom hands it back: the three node shapes
`find_scripts` distinguishes (`Element` with local name and attributes,
`Document`, and everything else).  The child sequence is a dedicated
list type so that the tree walk below is mutually structural (and so
reduces definitionally on concrete documents). -/
inductive Dom where
  | element (name : String) (attrs : List (String × String)) (children : DomList)
  | document (children : DomList)
  | other

/-- A sequence of child nodes. -/
inductive DomList where
  | nil
  | cons (d : Dom) (ds : DomList)

end

/-- The external collaborators: URL parsing and joining, the HTTP
client (`get_handle_redirect` and `head`), the HTML parser, the
sourcemap codec (`locate_sourcemap_reference_slice`,
`is_sourcemap_slice`, `DecodedMap::from_reader`), the minification
classifier, and the recursive directory walk (as the entries' paths
relative to the current directory, in segments; an overall error
stands for a failing `current_dir` or directory entry). -/
structure Env where
  parseUrl : String → Option Url
  join : Url → String → Option Url
  get : Url → Except Unit Response
  head : Url → Except Unit HeadResponse
  parseHtml : String → Except Unit Dom
  locatePragma : String → Option String
  isLikelyMinified : String → Bool
  isSourcemapSlice : String → Bool
  decode : String → Except Unit DecodedMap
  walk : Except Unit (List (List String))

/-- `is_community_cdn_url` (lines 29-36): the URL's domain exactly
matches one of the five allowlisted community CDN hosts. -/
def is_community_cdn_url (url : Url) : Bool :=
  url.domain == some "ssl.google-analytics.com" ||
  url.domain == some "cdn.js.com" ||
  url.domain == some "ajax.googleapis.com" ||
  url.domain == some "cdn.ravenjs.com" ||
  url.domain == some "cdn.jsdelivr.net"

/-- The attribute loop of `find_scripts::scan` on a `script` element:
each `src` attribute's value is joined against the base URL, a failing
join aborting with the error (`rv.push(url.join(&attr.value)?)`). -/
def scriptSrcs (env : Env) (url : Url) : List (String × String) → Except RunError (List Url)
  | [] => .ok []
  | a :: rest =>
    if a.1 = "src" then
      match env.join url a.2 with
      | none => .error .joinErr
      | some u =>
        match scriptSrcs env url rest with
        | .error e => .error e
        | .ok us => .ok (u :: us)
    else scriptSrcs env url rest

mutual

/-- `find_scripts::scan` (lines 40-63): a `script` element yields its
`src` attributes joined against the base URL and is not descended
into; any other element and the document node recurse over the
children; other node kinds yield nothing. -/
def scanNode (env : Env) (url : Url) : Dom → Except RunError (List Url)
  | .element name attrs children =>
    if name = "script" then scriptSrcs env url attrs
    else scanList env url children
  | .document children => scanList env url children
  | .other => .ok []

/-- The child loop of `find_scripts::scan`: results in document order,
the first error aborting the walk. -/
def scanList (env : Env) (url : Url) : DomList → Except RunError (List Url)
  | .nil => .ok []
  | .cons d ds =>
    match scanNode env url d with
    | .error e => .error e
    | .ok us =>
      match scanList env url ds with
      | .error e => .error e
      | .ok vs => .ok (us ++ vs)

end

/-- `find_scripts` (lines 38-69): scan the document from the root.
(The source re-parses the serialized base URL; parsing a URL's own
serialization is modelled as the identity.) -/
def find_scripts (env : Env) (url : Url) (handle : Dom) : Except RunError (List Url) :=
  scanNode env url handle

mutual

/-- A document node in which some (possibly nested) `script` element
visited by `find_scripts::scan` carries a `src` attribute whose value
does not join against the base URL — the situation in which the `?`
on line 46 fires. -/
def hasFailingSrc (env : Env) (url : Url) : Dom → Prop
  | .element name attrs children =>
    if name = "script" then ∃ a ∈ attrs, a.1 = "src" ∧ env.join url a.2 = none
    else hasFailingSrcList env url children
  | .document children => hasFailingSrcList env url children
  | .other => False

/-- Some child of the sequence has a failing script src. -/
def hasFailingSrcList (env : Env) (url : Url) : DomList → Prop
  | .nil => False
  | .cons d ds => hasFailingSrc env url d ∨ hasFailingSrcList env url ds

end

/-- The sourcemap reference of a response (lines 201-208): header
`sourcemap`, else header `x-sourcemap`, else the last sourcemap pragma
located in the body (the source unwraps the locator's result and asks
it for an optional URL; the locator is modelled as the composite
collaborator returning that optional reference). -/
def effectiveRef (env : Env) (resp : Response) (body : String) : Option String :=
  match resp.headerSourcemap.orElse (fun _ => resp.headerXSourcemap) with
  | some r => some r
  | none => env.locatePragma body

/-- The per-source loop of `validate_sourcemap` (lines 93-114): a
source with embedded content is skipped; one without content but with
a recorded name has that name joined against the sourcemap URL (a
failing join aborts with `joinErr`, the `?` on `url.join`) and a HEAD
request issued (a transport error aborts, the `?` on `api.head`; a
failing status only prints); one without a recorded name is reported
as an invalid source reference.  Returns the events in order and the
error that aborted the loop, if any. -/
def validateSources (env : Env) (url : Url) : List SourceEntry → Nat → List Event × Option RunError
  | [], _ => ([], none)
  | e :: rest, idx =>
    match e.contents with
    | some _ => validateSources env url rest (idx + 1)
    | none =>
      match e.ref with
      | none =>
        let r := validateSources env url rest (idx + 1)
        (.invalidSourceRef idx :: r.1, r.2)
      | some sourceRef =>
        match env.join url sourceRef with
        | none => ([], some .joinErr)
        | some su =>
          match env.head su with
          | .error _ => ([.head su], some .transport)
          | .ok _ =>
            let r := validateSources env url rest (idx + 1)
            (.head su :: r.1, r.2)

/-- `validate_sourcemap` (lines 71-117): decode the bytes (a failing
decode is the `?` on `DecodedMap::from_reader`), flatten an index map
(a failing flatten returns the error), then run the per-source loop. -/
def validate_sourcemap (env : Env) (url : Url) (body : String) : List Event × Option RunError :=
  match env.decode body with
  | .error _ => ([], some .decodeErr)
  | .ok (.regular m) => validateSources env url m.sources 0
  | .ok (.index (.error _)) => ([], some .flattenErr)
  | .ok (.index (.ok m)) => validateSources env url m.sources 0

/-- The distinguishable ways the analysis loop finishes one script
(the spec's `SourcemapOutcome`, read off the code's paths): skipped as
community CDN; script fetch came back failed; no reference and not
minified; minified with no reference (missing); reference whose map
fetch came back failed (broken); map fetched, with the sniff-test
verdict and whether `validate_sourcemap` succeeded. -/
inductive Outcome where
  | ignored
  | fetchFailed (status : Nat)
  | unminified
  | missingReference
  | brokenReference (status : Nat)
  | resolved (sniffOk : Bool) (validateOk : Bool)
deriving DecidableEq

/-- An entry of the `sourcemaps` vector (line 180):
`(script_url, sourcemap_url, resolved)`. -/
abbrev UploadCandidate := Url × Option Url × Bool

/-- What processing one script of the loop body (lines 184-240)
produces: the events it emitted, the outcome reached (none when a
propagated error aborted mid-script), the `sourcemaps` entry pushed,
the increment of `missing_sourcemaps`, and the propagated error. -/
structure ScriptStep where
  events : List Event
  outcome : Option Outcome
  candidate : Option UploadCandidate
  missingDelta : Nat
  err : Option RunError
deriving DecidableEq

/-- The body of the analysis loop (lines 184-240) for one script. -/
def processScript (env : Env) (scriptUrl : Url) : ScriptStep :=
  if is_community_cdn_url scriptUrl then
    ⟨[], some .ignored, none, 0, none⟩
  else
    match env.get scriptUrl with
    | .error _ => ⟨[.get scriptUrl], none, none, 0, some .transport⟩
    | .ok resp =>
      if resp.failed then
        ⟨[.get scriptUrl], some (.fetchFailed resp.status), none, 0, none⟩
      else
        match resp.body with
        | .error _ => ⟨[.get scriptUrl], none, none, 0, some .bodyRead⟩
        | .ok body =>
          match effectiveRef env resp body with
          | some smRef =>
            match env.join scriptUrl smRef with
            | none => ⟨[.get scriptUrl], none, none, 0, some .joinErr⟩
            | some smUrl =>
              match env.get smUrl with
              | .error _ => ⟨[.get scriptUrl, .get smUrl], none, none, 0, some .transport⟩
              | .ok smResp =>
                if smResp.failed then
                  ⟨[.get scriptUrl, .get smUrl], some (.brokenReference smResp.status),
                    some (scriptUrl, some smUrl, false), 1, none⟩
                else
                  match smResp.body with
                  | .error _ => ⟨[.get scriptUrl, .get smUrl], none, none, 0, some .bodyRead⟩
                  | .ok smBody =>
                    if env.isSourcemapSlice smBody then
                      let v := validate_sourcemap env smUrl smBody
                      ⟨[.get scriptUrl, .get smUrl] ++ v.1,
                        some (.resolved true v.2.isNone),
                        some (scriptUrl, some smUrl, true), 0, none⟩
                    else
                      ⟨[.get scriptUrl, .get smUrl], some (.resolved false false),
                        some (scriptUrl, some smUrl, true), 0, none⟩
          | none =>
            if env.isLikelyMinified body then
              ⟨[.get scriptUrl, .minCheck], some .missingReference,
                some (scriptUrl, none, false), 1, none⟩
            else
              ⟨[.get scriptUrl, .minCheck], some .unminified, none, 0, none⟩

/-- What the whole analysis loop accumulates: the events of all
scripts processed, the outcomes reached, the `sourcemaps` vector, the
final `missing_sourcemaps` count, and the error that aborted the loop,
if any. -/
structure ScanResult where
  events : List Event
  outcomes : List Outcome
  candidates : List UploadCandidate
  missing : Nat
  err : Option RunError
deriving DecidableEq

/-- The analysis loop over all scripts: a propagated error (`?` inside
the loop body) abandons the remaining scripts. -/
def runScripts (env : Env) : List Url → ScanResult
  | [] => ⟨[], [], [], 0, none⟩
  | u :: rest =>
    let s := processScript env u
    match s.err with
    | some e => ⟨s.events, s.outcome.toList, s.candidate.toList, s.missingDelta, some e⟩
    | none =>
      let r := runScripts env rest
      ⟨s.events ++ r.events, s.outcome.toList ++ r.outcomes,
        s.candidate.toList ++ r.candidates, s.missingDelta + r.missing, r.err⟩

/-- Rust's `str::split` with the one-character pattern `"/"`, over the
character list: always yields at least one (possibly empty) piece. -/
def splitOnChar (sep : Char) : List Char → List (List Char)
  | [] => [[]]
  | c :: cs =>
    match splitOnChar sep cs with
    | [] => [[]]
    | r :: rs => if c = sep then [] :: r :: rs else (c :: r) :: rs

/-- `path.rsplit("/").next()` (lines 124 and 128): the first piece of
the right-to-left split, i.e. the last piece of the split. -/
def rustRsplitNext (s : String) : Option String :=
  ((splitOnChar '/' s.data).reverse.map (fun l => String.mk l)).head?

/-- The filenames of the scripts of the `sourcemaps` vector
(lines 122-125).  The source unwraps the split's first element; the
unwrap is modelled by a default that `rustRsplitNext_isSome` proves
unreachable. -/
def knownJsFiles (cands : List UploadCandidate) : List String :=
  cands.map (fun c => (rustRsplitNext c.1.path).getD "")

/-- The filenames of the resolved sourcemap URLs (lines 126-129). -/
def knownSmFiles (cands : List UploadCandidate) : List String :=
  cands.filterMap (fun c => c.2.1.map (fun u => (rustRsplitNext u.path).getD ""))

/-- `HashSet::insert`, on a duplicate-free list kept in insertion
order; claims about the folder set are stated through membership. -/
def insertOnce (l : List (List String)) (x : List String) : List (List String) :=
  if x ∈ l then l else l ++ [x]

/-- One iteration of the walk loop (lines 134-146): an entry whose
relative path has a final segment contained in either filename set has
its parent folder recorded. -/
def candidateStep (js sm : List String) (acc : List (List String)) (p : List String) :
    List (List String) :=
  match p.getLast? with
  | none => acc
  | some filename =>
    if js.contains filename || sm.contains filename then insertOnce acc p.dropLast
    else acc

/-- The `interesting_folders` accumulation of `explain_upload_commands`
over the walked entries (paths relative to the current directory, as
segment lists; the current directory itself is the empty path, whose
missing file name skips it as in the source). -/
def interestingFolders (entries : List (List String)) (js sm : List String) :
    List (List String) :=
  entries.foldl (candidateStep js sm) []

/-- `explain_upload_commands` (lines 119-158): build the two filename
sets, walk the current directory (a failing `current_dir` or walk
entry propagates, the `?` on lines 131 and 136), and return the
candidate folders. -/
def explainUploadCommands (env : Env) (cands : List UploadCandidate) :
    Except RunError (List (List String)) :=
  let js := knownJsFiles cands
  let sm := knownSmFiles cands
  match env.walk with
  | .error _ => .error .walkErr
  | .ok entries => .ok (interestingFolders entries js sm)

/-- Everything observable about a whole run of `execute`
(lines 160-258): the events in order, the outcomes, the final
`sourcemaps` vector and `missing_sourcemaps` count, the three
end-of-run report lines (the missing count, the success line, the
optional-uploads line), whether `explain_upload_commands` ran, the
folders it printed, and the error the run ended with, if any. -/
structure RunResult where
  events : List Event
  outcomes : List Outcome
  candidates : List UploadCandidate
  missing : Nat
  printedMissingCount : Bool
  printedSuccess : Bool
  printedOptional : Bool
  correlatorInvoked : Bool
  folders : List (List String)
  err : Option RunError
deriving DecidableEq

/-- A run that ended with a fatal error before the analysis loop. -/
def RunResult.fatal (events : List Event) (e : RunError) : RunResult :=
  ⟨events, [], [], 0, false, false, false, false, [], some e⟩

/-- The end-of-run report (lines 242-255): the count line when
anything is missing, otherwise the success line plus, when the
`sourcemaps` vector is non-empty, the optional-uploads line; then
`explain_upload_commands` exactly when the vector is non-empty. -/
def finishRun (env : Env) (pre : List Event) (scan : ScanResult) : RunResult :=
  let printedMissingCount := scan.missing != 0
  let printedSuccess := scan.missing == 0
  let printedOptional := scan.missing == 0 && !scan.candidates.isEmpty
  if scan.candidates.isEmpty then
    ⟨pre ++ scan.events, scan.outcomes, scan.candidates, scan.missing,
      printedMissingCount, printedSuccess, printedOptional, false, [], none⟩
  else
    match explainUploadCommands env scan.candidates with
    | .error e =>
      ⟨pre ++ scan.events, scan.outcomes, scan.candidates, scan.missing,
        printedMissingCount, printedSuccess, printedOptional, true, [], some e⟩
    | .ok folders =>
      ⟨pre ++ scan.events, scan.outcomes, scan.candidates, scan.missing,
        printedMissingCount, printedSuccess, printedOptional, true, folders, none⟩

/-- `execute` (lines 160-258): parse the argument URL, fetch the page
(`get_handle_redirect(..)?.to_result()?`), parse its body as HTML,
extract the scripts, run the analysis loop, and finish with the report
and, when candidates exist, the local correlation. -/
def execute (env : Env) (urlArg : String) : RunResult :=
  match env.parseUrl urlArg with
  | none => .fatal [] .urlParse
  | some url =>
    match env.get url with
    | .error _ => .fatal [.get url] .transport
    | .ok resp =>
      if resp.failed then .fatal [.get url] .httpStatus
      else
        match resp.body with
        | .error _ => .fatal [.get url] .bodyRead
        | .ok pageBody =>
          match env.parseHtml pageBody with
          | .error _ => .fatal [.get url] .htmlParse
          | .ok dom =>
            match find_scripts env resp.finalUrl dom with
            | .error e => .fatal [.get url] e
            | .ok scripts =>
              let scan := runScripts env scripts
              match scan.err with
              | some e =>
                ⟨.get url :: scan.events, scan.outcomes, scan.candidates,
                  scan.missing, false, false, false, false, [], some e⟩
              | none => finishRun env [.get url] scan

/-! Concrete fixtures for witnesses and counterexamples. -/

/-- A page URL. -/
def urlPage : Url := ⟨some "example.com", "/index.html", "page"⟩

/-- A first-party script URL. -/
def urlS1 : Url := ⟨some "example.com", "/static/app.js", "s1"⟩

/-- A second first-party script URL. -/
def urlS2 : Url := ⟨some "example.com", "/static/other.js", "s2"⟩

/-- The sourcemap URL of `urlS1`. -/
def urlM1 : Url := ⟨some "example.com", "/static/app.js.map", "m1"⟩

/-- A source file referenced by a sourcemap. -/
def urlSrc1 : Url := ⟨some "example.com", "/static/app.ts", "src1"⟩

/-- A script hosted on an allowlisted community CDN. -/
def urlCdn : Url := ⟨some "cdn.jsdelivr.net", "/npm/lib.js", "cdn"⟩

/-- An environment in which every collaborator fails or yields
nothing; concrete environments override the relevant fields. -/
def baseEnv : Env :=
  ⟨fun _ => none, fun _ _ => none, fun _ => .error (), fun _ => .error (),
    fun _ => .error (), fun _ => none, fun _ => false, fun _ => false,
    fun _ => .error (), .error ()⟩

/-- A document with two scripts, `app.js` and `other.js`. -/
def dom2scripts : Dom :=
  .document (.cons (.element "script" [("src", "app.js")] .nil)
    (.cons (.element "script" [("src", "other.js")] .nil) .nil))

/-- A document with the single script `app.js`. -/
def dom1script : Dom :=
  .document (.cons (.element "script" [("src", "app.js")] .nil) .nil)

/-- A run over two discovered scripts in which the first script's
declared sourcemap reference does not join against its URL. -/
def env1 : Env :=
  { baseEnv with
    parseUrl := fun s => if s = "https://example.com/index.html" then some urlPage else none
    join := fun u r =>
      if u = urlPage ∧ r = "app.js" then some urlS1
      else if u = urlPage ∧ r = "other.js" then some urlS2
      else none
    get := fun u =>
      if u = urlPage then .ok ⟨urlPage, 200, false, none, none, .ok "PAGE"⟩
      else if u = urlS1 then .ok ⟨urlS1, 200, false, some "%%bad", none, .ok "JS1"⟩
      else if u = urlS2 then .ok ⟨urlS2, 200, false, none, none, .ok "JS2"⟩
      else .error ()
    parseHtml := fun s => if s = "PAGE" then .ok dom2scripts else .error () }

/-- The response serving `urlS1` with a `sourcemap` header. -/
def respS1 : Response := ⟨urlS1, 200, false, some "app.js.map", none, .ok "JS1"⟩

/-- A fully successful run: one script with a header sourcemap
reference, a fetchable sourcemap that passes the sniff test and
decodes with no sources, and a walkable working directory holding
`dist/app.js` and `dist/app.js.map`. -/
def env3 : Env :=
  { baseEnv with
    parseUrl := fun s => if s = "https://example.com/index.html" then some urlPage else none
    join := fun u r =>
      if u = urlPage ∧ r = "app.js" then some urlS1
      else if u = urlS1 ∧ r = "app.js.map" then some urlM1
      else none
    get := fun u =>
      if u = urlPage then .ok ⟨urlPage, 200, false, none, none, .ok "PAGE1"⟩
      else if u = urlS1 then .ok respS1
      else if u = urlM1 then .ok ⟨urlM1, 200, false, none, none, .ok "MAP"⟩
      else .error ()
    parseHtml := fun s => if s = "PAGE1" then .ok dom1script else .error ()
    isSourcemapSlice := fun s => s == "MAP"
    decode := fun s => if s = "MAP" then .ok (.regular ⟨[]⟩) else .error ()
    walk := .ok [[], ["dist"], ["dist", "app.js"], ["dist", "app.js.map"]] }

/-- A script whose declared sourcemap fetches but fails the sniff
test (`is_sourcemap_slice` is false on its body). -/
def env4 : Env :=
  { baseEnv with
    join := fun u r => if u = urlS1 ∧ r = "app.js.map" then some urlM1 else none
    get := fun u =>
      if u = urlS1 then .ok respS1
      else if u = urlM1 then .ok ⟨urlM1, 200, false, none, none, .ok "JUNK"⟩
      else .error () }

/-- A decoded map with two sources, both without embedded content:
the first one's reference does not join, the second one's does. -/
def mapTwoSources : RegularMap := ⟨[⟨some "bad", none⟩, ⟨some "good", none⟩]⟩

/-- A validation environment in which the source reference `bad` does
not join against the sourcemap URL while `good` joins to `urlSrc1`
and answers HEAD. -/
def env5 : Env :=
  { baseEnv with
    join := fun u r => if u = urlM1 ∧ r = "good" then some urlSrc1 else none
    head := fun u => if u = urlSrc1 then .ok ⟨urlSrc1, 200, true⟩ else .error ()
    decode := fun s => if s = "MAP2" then .ok (.regular mapTwoSources) else .error () }

/-- A script served with no sourcemap header, no pragma, and a body
the minification classifier calls readable. -/
def env8 : Env :=
  { baseEnv with
    get := fun u =>
      if u = urlS2 then .ok ⟨urlS2, 200, false, none, none, .ok "readable"⟩
      else .error () }

/-- An outcome the end-of-run report counts as needing an upload:
`missing_sourcemaps` is incremented exactly on these two paths. -/
def isMissingOrBroken : Outcome → Bool
  | .missingReference => true
  | .brokenReference _ => true
  | _ => false

/-- Spec-side reading of the Local Correlator's output ("the set of
directories that directly contain a file whose name is in the known
script-filename set or the known sourcemap-filename set"): the folder
extended by some known filename is one of the walked entries. -/
def folderHasKnownFile (entries : List (List String)) (js sm : List String)
    (folder : List String) : Prop :=
  ∃ filename, (js.contains filename || sm.contains filename) = true ∧
    folder ++ [filename] ∈ entries

/-! ## C10 -/

/-- `splitOnChar` always yields at least one piece. -/
theorem splitOnChar_ne_nil (sep : Char) (cs : List Char) : splitOnChar sep cs ≠ [] := by
  induction cs with
  | nil => simp [splitOnChar]
  | cons c cs ih =>
    unfold splitOnChar
    match h : splitOnChar sep cs with
    | [] => simp
    | r :: rs =>
      by_cases hc : c = sep <;> simp [hc]

/-- C10: extracting the final path segment by splitting the path on
"/" from the right and taking the first element is total: for every
string (in particular every URL path, including the empty one) the
first element exists, so the `unwrap` building the known script and
sourcemap filename sets cannot panic. -/
theorem rustRsplitNext_isSome (s : String) : (rustRsplitNext s).isSome = true := by
  unfold rustRsplitNext
  rw [List.head?_isSome]
  simp only [ne_eq, List.map_eq_nil_iff, List.reverse_eq_nil_iff]
  exact splitOnChar_ne_nil '/' s.data

/-! ## C6 -/

/-- C6: a script whose host exactly matches one of the five
allowlisted community-CDN domains is processed with no network request
at all (its event list is empty, so neither the script nor a sourcemap
nor any source is fetched), outcome `ignored`, no upload candidate, no
missing increment and no error. -/
theorem cdn_script_no_requests (env : Env) (u : Url)
    (h : is_community_cdn_url u = true) :
    processScript env u = ⟨[], some .ignored, none, 0, none⟩ := by
  simp [processScript, h]

/-- Witness for C6 at the jsdelivr URL. -/
theorem cdn_script_no_requests_witness :
    is_community_cdn_url urlCdn = true ∧
      processScript baseEnv urlCdn = ⟨[], some .ignored, none, 0, none⟩ :=
  ⟨by decide, cdn_script_no_requests baseEnv urlCdn (by decide)⟩

/-! ## C1 -/

/-- C1 counterexample: in `env1` the page yields the two scripts
`urlS1` and `urlS2`; while processing the first, joining its declared
sourcemap reference against its URL fails, and that error — not an
initial page fetch/parse failure — terminates the whole run: the
result carries the error and the second script is never fetched, so
the scan does not continue over the remaining scripts. -/
theorem run_killed_by_join_failure :
    find_scripts env1 urlPage dom2scripts = .ok [urlS1, urlS2] ∧
    execute env1 "https://example.com/index.html" =
      ⟨[.get urlPage, .get urlS1], [], [], 0, false, false, false, false, [],
        some .joinErr⟩ ∧
    Event.get urlS2 ∉ (execute env1 "https://example.com/index.html").events := by
  refine ⟨by decide, by decide, by decide⟩

/-- A `src` attribute whose value fails to join makes the attribute
loop of `find_scripts::scan` return the join error, wherever the
attribute sits in the list. -/
theorem scriptSrcs_error_of_src_join_failure (env : Env) (url : Url)
    (attrs : List (String × String)) (a : String × String)
    (ha : a ∈ attrs) (hsrc : a.1 = "src") (hjoin : env.join url a.2 = none) :
    ∃ e, scriptSrcs env url attrs = .error e := by
  induction attrs with
  | nil => cases ha
  | cons b rest ih =>
    rcases List.mem_cons.mp ha with rfl | ha
    · exact ⟨.joinErr, by simp [scriptSrcs, hsrc, hjoin]⟩
    · by_cases hb : b.1 = "src"
      · cases hj : env.join url b.2 with
        | none => exact ⟨.joinErr, by simp [scriptSrcs, hb, hj]⟩
        | some u =>
          obtain ⟨e, he⟩ := ih ha
          exact ⟨e, by simp [scriptSrcs, hb, hj, he]⟩
      · obtain ⟨e, he⟩ := ih ha
        exact ⟨e, by simp [scriptSrcs, hb, he]⟩

mutual

/-- A failing script src anywhere in a node makes the document walk
return an error: the `?` on line 46 propagates out of the
recursion. -/
theorem scanNode_error_of_failingSrc (env : Env) (url : Url) :
    ∀ (d : Dom), hasFailingSrc env url d → ∃ e, scanNode env url d = .error e
  | .element name attrs children, h => by
    unfold hasFailingSrc at h
    by_cases hn : name = "script"
    · rw [if_pos hn] at h
      obtain ⟨a, ha, hsrc, hjoin⟩ := h
      obtain ⟨e, he⟩ := scriptSrcs_error_of_src_join_failure env url attrs a ha hsrc hjoin
      exact ⟨e, by simp [scanNode, hn, he]⟩
    · rw [if_neg hn] at h
      obtain ⟨e, he⟩ := scanList_error_of_failingSrc env url children h
      exact ⟨e, by simp [scanNode, hn, he]⟩
  | .document children, h => by
    unfold hasFailingSrc at h
    obtain ⟨e, he⟩ := scanList_error_of_failingSrc env url children h
    exact ⟨e, by simp [scanNode, he]⟩
  | .other, h => False.elim h

/-- A failing script src in some child makes the child loop return an
error. -/
theorem scanList_error_of_failingSrc (env : Env) (url : Url) :
    ∀ (ds : DomList), hasFailingSrcList env url ds → ∃ e, scanList env url ds = .error e
  | .nil, h => False.elim h
  | .cons d ds, h => by
    unfold hasFailingSrcList at h
    rcases h with h | h
    · obtain ⟨e, he⟩ := scanNode_error_of_failingSrc env url d h
      exact ⟨e, by simp [scanList, he]⟩
    · cases hd : scanNode env url d with
      | error e => exact ⟨e, by simp [scanList, hd]⟩
      | ok us =>
        obtain ⟨e, he⟩ := scanList_error_of_failingSrc env url ds h
        exact ⟨e, by simp [scanList, hd, he]⟩

end

/-- C1 amended: only HTTP-status-level failures and sourcemap
decode/validation failures are isolated.  In order: a script fetch
that comes back failed is recorded and leaves no error; a sourcemap
fetch that comes back failed is recorded as a broken reference and
leaves no error; once the sourcemap body is read, neither a failing
sniff test nor any `validate_sourcemap` error aborts the script; a
script step without error lets the loop continue over the remaining
scripts; but a sourcemap-reference join failure aborts the run with an
error, as do a transport-level script fetch failure, a failing body
read, and a failing directory walk during the final correlation; and a
script-src join failure anywhere in the document makes `find_scripts`
return an error, which `execute` turns into a fatal result before any
script is processed. -/
theorem error_isolation_amended :
    (∀ (env : Env) (u : Url) (resp : Response),
        is_community_cdn_url u = false → env.get u = .ok resp → resp.failed = true →
        processScript env u = ⟨[.get u], some (.fetchFailed resp.status), none, 0, none⟩) ∧
    (∀ (env : Env) (u : Url) (resp : Response) (body smRef : String) (smUrl : Url)
        (smResp : Response),
        is_community_cdn_url u = false → env.get u = .ok resp → resp.failed = false →
        resp.body = .ok body → effectiveRef env resp body = some smRef →
        env.join u smRef = some smUrl → env.get smUrl = .ok smResp → smResp.failed = true →
        processScript env u = ⟨[.get u, .get smUrl], some (.brokenReference smResp.status),
          some (u, some smUrl, false), 1, none⟩) ∧
    (∀ (env : Env) (u : Url) (resp : Response) (body smRef : String) (smUrl : Url)
        (smResp : Response) (smBody : String),
        is_community_cdn_url u = false → env.get u = .ok resp → resp.failed = false →
        resp.body = .ok body → effectiveRef env resp body = some smRef →
        env.join u smRef = some smUrl → env.get smUrl = .ok smResp → smResp.failed = false →
        smResp.body = .ok smBody →
        (processScript env u).err = none) ∧
    (∀ (env : Env) (u : Url) (rest : List Url),
        (processScript env u).err = none →
        (runScripts env (u :: rest)).events
            = (processScript env u).events ++ (runScripts env rest).events ∧
          (runScripts env (u :: rest)).err = (runScripts env rest).err) ∧
    (∀ (env : Env) (u : Url) (resp : Response) (body smRef : String),
        is_community_cdn_url u = false → env.get u = .ok resp → resp.failed = false →
        resp.body = .ok body → effectiveRef env resp body = some smRef →
        env.join u smRef = none →
        (processScript env u).err = some .joinErr) ∧
    (∀ (env : Env) (u : Url),
        is_community_cdn_url u = false → env.get u = .error () →
        (processScript env u).err = some .transport) ∧
    (∀ (env : Env) (u : Url) (resp : Response),
        is_community_cdn_url u = false → env.get u = .ok resp → resp.failed = false →
        resp.body = .error () →
        (processScript env u).err = some .bodyRead) ∧
    (∀ (env : Env) (pre : List Event) (scan : ScanResult),
        scan.candidates.isEmpty = false → env.walk = .error () →
        (finishRun env pre scan).err = some .walkErr) ∧
    (∀ (env : Env) (url : Url) (d : Dom),
        hasFailingSrc env url d → ∃ e, find_scripts env url d = .error e) ∧
    (∀ (env : Env) (urlArg : String) (url : Url) (resp : Response) (pageBody : String)
        (dom : Dom) (e : RunError),
        env.parseUrl urlArg = some url → env.get url = .ok resp → resp.failed = false →
        resp.body = .ok pageBody → env.parseHtml pageBody = .ok dom →
        find_scripts env resp.finalUrl dom = .error e →
        execute env urlArg = .fatal [.get url] e) := by
  refine ⟨?_, ?_, ?_, ?_, ?_, ?_, ?_, ?_, ?_, ?_⟩
  · intro env u resp hc hg hf
    simp [processScript, hc, hg, hf]
  · intro env u resp body smRef smUrl smResp hc hg hf hb hr hj hg2 hf2
    simp [processScript, hc, hg, hf, hb, hr, hj, hg2, hf2]
  · intro env u resp body smRef smUrl smResp smBody hc hg hf hb hr hj hg2 hf2 hb2
    simp only [processScript, hc, hg, hf, hb, hr, hj, hg2, hf2, hb2]
    cases hs : env.isSourcemapSlice smBody <;> simp [hs]
  · intro env u rest h
    simp [runScripts, h]
  · intro env u resp body smRef hc hg hf hb hr hj
    simp [processScript, hc, hg, hf, hb, hr, hj]
  · intro env u hc hg
    simp [processScript, hc, hg]
  · intro env u resp hc hg hf hb
    simp [processScript, hc, hg, hf, hb]
  · intro env pre scan hne hw
    simp [finishRun, explainUploadCommands, hne, hw]
  · intro env url d h
    exact scanNode_error_of_failingSrc env url d h
  · intro env urlArg url resp pageBody dom e h1 h2 h3 h4 h5 h6
    simp [execute, h1, h2, h3, h4, h5, h6]

/-- Witness instantiating the isolated status-failure case of
`error_isolation_amended` in an environment whose one script comes
back with a failing status. -/
theorem error_isolation_amended_witness :
    processScript { baseEnv with get := fun _ => .ok ⟨urlS1, 500, true, none, none, .ok ""⟩ }
        urlS1 = ⟨[.get urlS1], some (.fetchFailed 500), none, 0, none⟩ :=
  error_isolation_amended.1
    { baseEnv with get := fun _ => .ok ⟨urlS1, 500, true, none, none, .ok ""⟩ }
    urlS1 ⟨urlS1, 500, true, none, none, .ok ""⟩ (by decide) rfl rfl

/-! ## C2 -/

/-- C2: whenever a script declares a sourcemap reference (through the
`sourcemap`/`x-sourcemap` headers or the body pragma, which is what
`effectiveRef` resolves), the URL fetched next is exactly that
reference joined against the script's own URL — the page's URL does
not enter `processScript` at all. -/
theorem sourcemap_fetched_at_script_join (env : Env) (u : Url) (resp : Response)
    (body smRef : String) (smUrl : Url)
    (hc : is_community_cdn_url u = false)
    (hg : env.get u = .ok resp)
    (hf : resp.failed = false)
    (hb : resp.body = .ok body)
    (hr : effectiveRef env resp body = some smRef)
    (hj : env.join u smRef = some smUrl) :
    ∃ rest, (processScript env u).events = .get u :: .get smUrl :: rest := by
  simp only [processScript, hc, hg, hf, hb, hr, hj, Bool.false_eq_true, if_false]
  repeat' split
  all_goals exact ⟨_, rfl⟩

/-- Witness for C2: in `env3` the script's header reference
`app.js.map` is fetched at its join against the script's URL. -/
theorem sourcemap_fetched_at_script_join_witness :
    ∃ rest, (processScript env3 urlS1).events = .get urlS1 :: .get urlM1 :: rest :=
  sourcemap_fetched_at_script_join env3 urlS1 respS1 "JS1" "app.js.map" urlM1
    (by decide) (by decide) (by decide) (by decide) (by decide) (by decide)

/-! ## C3 -/

/-- One script's missing increment is 1 exactly on the missing- and
broken-reference paths. -/
theorem processScript_missing_count (env : Env) (u : Url) :
    (processScript env u).missingDelta
      = ((processScript env u).outcome.toList.filter isMissingOrBroken).length := by
  unfold processScript
  repeat' split
  all_goals simp [isMissingOrBroken]

/-- C3 counterexample: in the fully successful run `env3` no script's
outcome is `MissingReference` or `BrokenReference` (the single outcome
is a valid resolved map and the missing count is 0), yet the Local
Correlator is invoked — `explain_upload_commands` runs whenever the
candidate vector is non-empty, not only when something is missing or
broken. -/
theorem correlator_runs_without_missing :
    (execute env3 "https://example.com/index.html").correlatorInvoked = true ∧
    (execute env3 "https://example.com/index.html").missing = 0 ∧
    (execute env3 "https://example.com/index.html").outcomes = [.resolved true true] ∧
    (execute env3 "https://example.com/index.html").candidates
      = [(urlS1, some urlM1, true)] := by
  refine ⟨by decide, by decide, by decide, by decide⟩

/-- C3 amended: the Local Correlator is invoked exactly when the
UploadCandidate list is non-empty, whether or not anything is missing
or broken; the missing-count line is printed exactly when the count is
non-zero, the success line exactly when it is zero, and the
optional-uploads line exactly when it is zero and candidates exist;
and the missing count equals the number of outcomes that are
`MissingReference` or `BrokenReference`. -/
theorem report_summary_amended :
    (∀ (env : Env) (pre : List Event) (scan : ScanResult),
        (finishRun env pre scan).correlatorInvoked = !scan.candidates.isEmpty ∧
        (finishRun env pre scan).printedMissingCount = (scan.missing != 0) ∧
        (finishRun env pre scan).printedSuccess = (scan.missing == 0) ∧
        (finishRun env pre scan).printedOptional
            = (scan.missing == 0 && !scan.candidates.isEmpty)) ∧
    (∀ (env : Env) (scripts : List Url),
        (runScripts env scripts).missing
          = ((runScripts env scripts).outcomes.filter isMissingOrBroken).length) := by
  constructor
  · intro env pre scan
    cases hE : scan.candidates.isEmpty with
    | true => simp [finishRun, hE]
    | false =>
      cases hX : explainUploadCommands env scan.candidates <;>
        simp [finishRun, hE, hX]
  · intro env scripts
    induction scripts with
    | nil => simp [runScripts]
    | cons u rest ih =>
      have hu := processScript_missing_count env u
      cases h : (processScript env u).err with
      | some e => simpa [runScripts, h] using hu
      | none => simp [runScripts, h, hu, ih, List.filter_append]

/-! ## C4 -/

/-- C4 counterexample: in `env4` the fetched sourcemap body fails the
sniff test, yet the script is pushed as a *resolved* candidate
(`(urlS1, some urlM1, true)`) and `missing_sourcemaps` is not
incremented — the sniff-failed map is not treated like an absent one,
which would have raised the missing count. -/
theorem sniff_failure_still_resolved :
    processScript env4 urlS1 =
      ⟨[.get urlS1, .get urlM1], some (.resolved false false),
        some (urlS1, some urlM1, true), 0, none⟩ ∧
    (processScript env4 urlS1).missingDelta = 0 ∧
    (processScript env4 urlS1).candidate = some (urlS1, some urlM1, true) := by
  refine ⟨by decide, by decide, by decide⟩

/-- C4 amended: a fetched sourcemap that fails the sniff test is
excluded from further analysis non-fatally (no validation events, no
error), but the script is still recorded as a candidate with the
resolved flag set and the missing count is not incremented. -/
theorem sniff_failure_amended (env : Env) (u : Url) (resp : Response)
    (body smRef : String) (smUrl : Url) (smResp : Response) (smBody : String)
    (hc : is_community_cdn_url u = false)
    (hg : env.get u = .ok resp) (hf : resp.failed = false)
    (hb : resp.body = .ok body)
    (hr : effectiveRef env resp body = some smRef)
    (hj : env.join u smRef = some smUrl)
    (hg2 : env.get smUrl = .ok smResp) (hf2 : smResp.failed = false)
    (hb2 : smResp.body = .ok smBody)
    (hs : env.isSourcemapSlice smBody = false) :
    processScript env u =
      ⟨[.get u, .get smUrl], some (.resolved false false),
        some (u, some smUrl, true), 0, none⟩ := by
  simp [processScript, hc, hg, hf, hb, hr, hj, hg2, hf2, hb2, hs]

/-- Witness instantiating `sniff_failure_amended` in `env4`. -/
theorem sniff_failure_amended_witness :
    processScript env4 urlS1 =
      ⟨[.get urlS1, .get urlM1], some (.resolved false false),
        some (urlS1, some urlM1, true), 0, none⟩ :=
  sniff_failure_amended env4 urlS1 respS1 "JS1" "app.js.map" urlM1
    ⟨urlM1, 200, false, none, none, .ok "JUNK"⟩ "JUNK"
    (by decide) (by decide) (by decide) (by decide) (by decide) (by decide)
    (by decide) (by decide) (by decide) (by decide)

/-! ## C5 -/

/-- C5 counterexample: in `env5` the first source entry's reference
fails to join; validation stops with that error rather than moving on:
the second (joinable) source is never HEAD-checked and no
"invalid source reference" report is produced for the failing one. -/
theorem source_join_failure_aborts_validation :
    validate_sourcemap env5 urlM1 "MAP2" = ([], some .joinErr) ∧
    Event.head urlSrc1 ∉ (validate_sourcemap env5 urlM1 "MAP2").1 ∧
    Event.invalidSourceRef 0 ∉ (validate_sourcemap env5 urlM1 "MAP2").1 := by
  refine ⟨by decide, by decide, by decide⟩

/-- C5 amended: per-source isolation holds only for a source entry
with an absent name (reported as an invalid source reference, with no
network call, and validation continues) and for a HEAD response with a
failing status (the loop records the HEAD and continues regardless of
the response); a source reference that fails to join as a URL, or a
transport-level HEAD failure, aborts validation of the remaining
entries (the caller catches the error, so the overall run
continues). -/
theorem per_source_isolation_amended :
    (∀ (env : Env) (url : Url) (e : SourceEntry) (rest : List SourceEntry) (idx : Nat),
        e.contents = none → e.ref = none →
        validateSources env url (e :: rest) idx
          = (.invalidSourceRef idx :: (validateSources env url rest (idx + 1)).1,
              (validateSources env url rest (idx + 1)).2)) ∧
    (∀ (env : Env) (url : Url) (e : SourceEntry) (rest : List SourceEntry) (idx : Nat)
        (r : String) (su : Url) (h : HeadResponse),
        e.contents = none → e.ref = some r → env.join url r = some su →
        env.head su = .ok h →
        validateSources env url (e :: rest) idx
          = (.head su :: (validateSources env url rest (idx + 1)).1,
              (validateSources env url rest (idx + 1)).2)) ∧
    (∀ (env : Env) (url : Url) (e : SourceEntry) (rest : List SourceEntry) (idx : Nat)
        (r : String),
        e.contents = none → e.ref = some r → env.join url r = none →
        validateSources env url (e :: rest) idx = ([], some .joinErr)) ∧
    (∀ (env : Env) (url : Url) (e : SourceEntry) (rest : List SourceEntry) (idx : Nat)
        (r : String) (su : Url),
        e.contents = none → e.ref = some r → env.join url r = some su →
        env.head su = .error () →
        validateSources env url (e :: rest) idx = ([.head su], some .transport)) := by
  refine ⟨?_, ?_, ?_, ?_⟩
  · intro env url e rest idx h1 h2
    simp [validateSources, h1, h2]
  · intro env url e rest idx r su h h1 h2 h3 h4
    simp [validateSources, h1, h2, h3, h4]
  · intro env url e rest idx r h1 h2 h3
    simp [validateSources, h1, h2, h3]
  · intro env url e rest idx r su h1 h2 h3 h4
    simp [validateSources, h1, h2, h3, h4]

/-- Witness instantiating the isolated status-level HEAD case of
`per_source_isolation_amended` in `env5` on the joinable source. -/
theorem per_source_isolation_amended_witness :
    validateSources env5 urlM1 [⟨some "good", none⟩] 0 = ([.head urlSrc1], none) := by
  have h := per_source_isolation_amended.2.1 env5 urlM1 ⟨some "good", none⟩ [] 0 "good"
    urlSrc1 ⟨urlSrc1, 200, true⟩ rfl rfl (by decide) (by decide)
  simpa [validateSources] using h

/-! ## C7 -/

/-- C7: every HEAD request the per-source validation loop issues is
the scrape check of some source entry whose embedded content is
absent (and whose reference joined); a source entry carrying embedded
content therefore never triggers a network check. -/
theorem head_only_for_absent_content (env : Env) (url : Url)
    (sources : List SourceEntry) (idx : Nat) (u : Url)
    (h : Event.head u ∈ (validateSources env url sources idx).1) :
    ∃ e ∈ sources, e.contents = none ∧
      ∃ r, e.ref = some r ∧ env.join url r = some u := by
  induction sources generalizing idx with
  | nil => simp [validateSources] at h
  | cons e rest ih =>
    simp only [validateSources] at h
    cases hc : e.contents with
    | some c =>
      simp only [hc] at h
      obtain ⟨e', he', hprop⟩ := ih _ h
      exact ⟨e', List.mem_cons_of_mem _ he', hprop⟩
    | none =>
      simp only [hc] at h
      cases hr : e.ref with
      | none =>
        simp only [hr, List.mem_cons] at h
        rcases h with h | h
        · simp at h
        · obtain ⟨e', he', hprop⟩ := ih _ h
          exact ⟨e', List.mem_cons_of_mem _ he', hprop⟩
      | some r =>
        simp only [hr] at h
        cases hj : env.join url r with
        | none => simp [hj] at h
        | some su =>
          simp only [hj] at h
          cases hh : env.head su with
          | error err =>
            simp only [hh, List.mem_singleton] at h
            rw [show (Event.head u = Event.head su) ↔ u = su by simp] at h
            subst h
            exact ⟨e, List.mem_cons_self e rest, hc, r, hr, hj⟩
          | ok h2 =>
            simp only [hh, List.mem_cons] at h
            rcases h with h | h
            · rw [show (Event.head u = Event.head su) ↔ u = su by simp] at h
              subst h
              exact ⟨e, List.mem_cons_self e rest, hc, r, hr, hj⟩
            · obtain ⟨e', he', hprop⟩ := ih _ h
              exact ⟨e', List.mem_cons_of_mem _ he', hprop⟩

/-- Witness for C7: in `env5` the content-less source `good` is
HEAD-checked, and the theorem recovers that entry. -/
theorem head_only_for_absent_content_witness :
    Event.head urlSrc1 ∈ (validateSources env5 urlM1 [⟨some "good", none⟩] 0).1 ∧
    ∃ e ∈ [(⟨some "good", none⟩ : SourceEntry)], e.contents = none ∧
      ∃ r, e.ref = some r ∧ env5.join urlM1 r = some urlSrc1 :=
  ⟨by decide, head_only_for_absent_content env5 urlM1 [⟨some "good", none⟩] 0 urlSrc1
    (by decide)⟩

/-! ## C8 -/

/-- The per-source loop never consults the minification classifier. -/
theorem minCheck_not_in_validateSources (env : Env) (url : Url)
    (sources : List SourceEntry) (idx : Nat) :
    Event.minCheck ∉ (validateSources env url sources idx).1 := by
  induction sources generalizing idx with
  | nil => simp [validateSources]
  | cons e rest ih =>
    simp only [validateSources]
    cases e.contents with
    | some c => exact ih _
    | none =>
      cases e.ref with
      | none => simp [ih]
      | some r =>
        cases hj : env.join url r with
        | none => simp [hj]
        | some su =>
          cases hh : env.head su with
          | error err => simp [hj, hh]
          | ok h2 => simp [hj, hh, ih]

/-- Neither does `validate_sourcemap`. -/
theorem minCheck_not_in_validate (env : Env) (url : Url) (body : String) :
    Event.minCheck ∉ (validate_sourcemap env url body).1 := by
  unfold validate_sourcemap
  repeat' split
  all_goals simp [minCheck_not_in_validateSources]

/-- Overriding the classifier leaves every other collaborator of the
environment in place. -/
theorem heuristicSet_join (env : Env) (f : String → Bool) :
    ({ env with isLikelyMinified := f } : Env).join = env.join := rfl

/-- Overriding the classifier leaves the HTTP GET in place. -/
theorem heuristicSet_get (env : Env) (f : String → Bool) :
    ({ env with isLikelyMinified := f } : Env).get = env.get := rfl

/-- Overriding the classifier leaves the HTTP HEAD in place. -/
theorem heuristicSet_head (env : Env) (f : String → Bool) :
    ({ env with isLikelyMinified := f } : Env).head = env.head := rfl

/-- Overriding the classifier leaves the decoder in place. -/
theorem heuristicSet_decode (env : Env) (f : String → Bool) :
    ({ env with isLikelyMinified := f } : Env).decode = env.decode := rfl

/-- Overriding the classifier leaves the sniff test in place. -/
theorem heuristicSet_isSourcemapSlice (env : Env) (f : String → Bool) :
    ({ env with isLikelyMinified := f } : Env).isSourcemapSlice = env.isSourcemapSlice := rfl

/-- Overriding the classifier does not change the resolved sourcemap
reference (headers and pragma are classifier-independent). -/
theorem effectiveRef_heuristic (env : Env) (f : String → Bool) (resp : Response)
    (body : String) :
    effectiveRef { env with isLikelyMinified := f } resp body
      = effectiveRef env resp body := rfl

/-- The per-source loop is classifier-independent. -/
theorem validateSources_heuristic (env : Env) (f : String → Bool) (url : Url)
    (sources : List SourceEntry) (idx : Nat) :
    validateSources { env with isLikelyMinified := f } url sources idx
      = validateSources env url sources idx := by
  induction sources generalizing idx with
  | nil => rfl
  | cons e rest ih =>
    simp only [validateSources, heuristicSet_join, heuristicSet_head, ih]

/-- `validate_sourcemap` is classifier-independent. -/
theorem validate_heuristic (env : Env) (f : String → Bool) (url : Url) (body : String) :
    validate_sourcemap { env with isLikelyMinified := f } url body
      = validate_sourcemap env url body := by
  simp only [validate_sourcemap, heuristicSet_decode, validateSources_heuristic]

/-- C8: the minification heuristic is consulted only when no sourcemap
reference is declared.  First part: for a script with a declared
reference (header or pragma) the classifier is never consulted (no
`minCheck` event) and the whole one-script analysis is unchanged under
any replacement of the classifier.  Second part: a script with no
declared reference that the classifier calls readable is left as
intentionally readable source — outcome `unminified`, no upload
candidate, no missing increment, no error. -/
theorem minification_heuristic_scope :
    (∀ (env : Env) (f : String → Bool) (u : Url) (resp : Response) (body smRef : String),
        is_community_cdn_url u = false → env.get u = .ok resp → resp.failed = false →
        resp.body = .ok body → effectiveRef env resp body = some smRef →
        Event.minCheck ∉ (processScript env u).events ∧
          processScript { env with isLikelyMinified := f } u = processScript env u) ∧
    (∀ (env : Env) (u : Url) (resp : Response) (body : String),
        is_community_cdn_url u = false → env.get u = .ok resp → resp.failed = false →
        resp.body = .ok body → effectiveRef env resp body = none →
        env.isLikelyMinified body = false →
        processScript env u = ⟨[.get u, .minCheck], some .unminified, none, 0, none⟩) := by
  constructor
  · intro env f u resp body smRef hc hg hf hb hr
    constructor
    · simp only [processScript, hc, hg, hf, hb, hr, Bool.false_eq_true, if_false]
      repeat' split
      all_goals simp [minCheck_not_in_validate]
    · simp only [processScript, effectiveRef_heuristic, heuristicSet_get, heuristicSet_join,
        heuristicSet_isSourcemapSlice, validate_heuristic, hc, hg, hf, hb, hr]
  · intro env u resp body hc hg hf hb hr hm
    simp [processScript, hc, hg, hf, hb, hr, hm]

/-- Witness for C8: the no-reference readable script of `env8` is left
unminified, and replacing the classifier by the constant-true one does
not change the analysis of the referenced script of `env3`. -/
theorem minification_heuristic_scope_witness :
    processScript env8 urlS2 = ⟨[.get urlS2, .minCheck], some .unminified, none, 0, none⟩ ∧
    processScript { env3 with isLikelyMinified := fun _ => true } urlS1
      = processScript env3 urlS1 :=
  ⟨minification_heuristic_scope.2 env8 urlS2 ⟨urlS2, 200, false, none, none, .ok "readable"⟩
      "readable" (by decide) (by decide) rfl rfl (by decide) (by decide),
    (minification_heuristic_scope.1 env3 (fun _ => true) urlS1 respS1 "JS1" "app.js.map"
      (by decide) (by decide) (by decide) (by decide) (by decide)).2⟩

/-! ## C9 -/

/-- Membership in the set-insert. -/
theorem mem_insertOnce {l : List (List String)} {x y : List String} :
    y ∈ insertOnce l x ↔ y ∈ l ∨ y = x := by
  by_cases h : x ∈ l
  · simp only [insertOnce, if_pos h]
    exact ⟨Or.inl, fun hy => hy.elim id (fun e => e ▸ h)⟩
  · simp [insertOnce, if_neg h]

/-- Membership after one step of the walk loop. -/
theorem mem_candidateStep {js sm : List String} {acc : List (List String)}
    {p folder : List String} :
    folder ∈ candidateStep js sm acc p ↔
      folder ∈ acc ∨ ∃ filename, p.getLast? = some filename ∧
        (js.contains filename || sm.contains filename) = true ∧ folder = p.dropLast := by
  unfold candidateStep
  cases hL : p.getLast? with
  | none => simp [hL]
  | some filename =>
    simp only [hL, Option.some.injEq]
    by_cases hc : (js.contains filename || sm.contains filename) = true
    · rw [if_pos hc, mem_insertOnce]
      constructor
      · rintro (h | h)
        · exact Or.inl h
        · exact Or.inr ⟨filename, rfl, hc, h⟩
      · rintro (h | ⟨fn, hfn, hc2, h⟩)
        · exact Or.inl h
        · exact Or.inr h
    · rw [if_neg hc]
      constructor
      · exact Or.inl
      · rintro (h | ⟨fn, hfn, hc2, h⟩)
        · exact h
        · subst hfn
          exact absurd hc2 hc

/-- Membership in the whole fold. -/
theorem mem_foldl_candidateStep (js sm : List String) (entries : List (List String)) :
    ∀ (acc : List (List String)) (folder : List String),
      folder ∈ entries.foldl (candidateStep js sm) acc ↔
        folder ∈ acc ∨ ∃ p ∈ entries, ∃ filename, p.getLast? = some filename ∧
          (js.contains filename || sm.contains filename) = true ∧ folder = p.dropLast := by
  induction entries with
  | nil => simp
  | cons p rest ih =>
    intro acc folder
    rw [List.foldl_cons, ih, mem_candidateStep]
    constructor
    · rintro ((hacc | ⟨filename, hL, hc, rfl⟩) | ⟨q, hq, filename, hL, hc, rfl⟩)
      · exact Or.inl hacc
      · exact Or.inr ⟨p, List.mem_cons_self p rest, filename, hL, hc, rfl⟩
      · exact Or.inr ⟨q, List.mem_cons_of_mem _ hq, filename, hL, hc, rfl⟩
    · rintro (hacc | ⟨q, hq, filename, hL, hc, rfl⟩)
      · exact Or.inl (Or.inl hacc)
      · rcases List.mem_cons.mp hq with rfl | hq
        · exact Or.inl (Or.inr ⟨filename, hL, hc, rfl⟩)
        · exact Or.inr ⟨q, hq, filename, hL, hc, rfl⟩

/-- C9: the Local Correlator's candidate folders are exactly the
directories (relative to the working directory) holding an entry whose
filename lies in the known script- or sourcemap-filename set; in the
concrete Scenario D — known filenames `app.js` and `app.js.map`, a
working directory walked as `.`, `dist`, `dist/app.js`,
`dist/app.js.map` — the candidate-folder set is exactly `dist`. -/
theorem correlator_folders_exact :
    (∀ (entries : List (List String)) (js sm : List String) (folder : List String),
        folder ∈ interestingFolders entries js sm ↔
          folderHasKnownFile entries js sm folder) ∧
    interestingFolders [[], ["dist"], ["dist", "app.js"], ["dist", "app.js.map"]]
        ["app.js"] ["app.js.map"] = [["dist"]] := by
  constructor
  · intro entries js sm folder
    rw [interestingFolders, mem_foldl_candidateStep]
    simp only [List.not_mem_nil, false_or]
    unfold folderHasKnownFile
    constructor
    · rintro ⟨p, hp, filename, hL, hc, rfl⟩
      exact ⟨filename, hc, by rwa [List.dropLast_append_getLast? filename hL]⟩
    · rintro ⟨filename, hc, hmem⟩
      exact ⟨folder ++ [filename], hmem, filename, List.getLast?_concat _, hc,
        List.dropLast_concat.symm⟩
  · decide

end AnalyzeSourcemaps
